import Mathlib

/-!
# Verification of the personal finance tracker ledger and aggregation logic

Shallow embedding of `src/app.py`. Conventions:

* Amounts (`pandas` floats holding decimal currency values) are modelled as `ℚ`.
* Dates (`pandas` timestamps compared via `.dt.date`) are modelled as `Int` day numbers;
  only ordering and day arithmetic on dates is used by the program.
* A `pandas` cell that may be `NaN` (missing) is modelled as an `Option`.
* Python strings are Lean `String`s; the character-level operators `str.split` and
  `str.strip` used by the tag analysis are modelled on the underlying character list.
-/

namespace App

/-- One ledger record, with the six columns of the store
(`Date, Type, Category, Amount, Description, Tags`).  `tags = none` models a
`NaN` cell (an empty CSV field read back by `pandas`). -/
structure Transaction where
  date : Int
  ttype : String
  category : String
  amount : ℚ
  description : String
  tags : Option String
deriving Repr, DecidableEq

/-- The canonical six-column schema, from `load_data`'s
`pd.DataFrame(columns=['Date', 'Type', 'Category', 'Amount', 'Description', 'Tags'])`. -/
def canonicalColumns : List String :=
  ["Date", "Type", "Category", "Amount", "Description", "Tags"]

/-! ## Persistence model (`DATA_FILE` plus any backup copies next to it) -/

/-- The on-disk state: the primary store file (`none` when the file does not
exist) and the collection of backup copies living alongside it. -/
structure Storage where
  primary : Option (List Transaction)
  backups : List (List Transaction)
deriving Repr, DecidableEq

namespace Store

/-- `load_data` as used by the mutating operations, on a well-formed store:
`pd.read_csv` of a file previously written by `save_data`, or the
`FileNotFoundError` branch returning the empty frame. -/
def load_data (s : Storage) : List Transaction :=
  s.primary.getD []

/-- `save_data` (src/app.py lines 77-79): `df.to_csv(DATA_FILE, index=False)`.
The function body contains a single write of the primary file; nothing touches
the backup collection. -/
def save_data (df : List Transaction) (s : Storage) : Storage :=
  { primary := some df, backups := s.backups }

/-- `add_transaction` (src/app.py lines 81-99): loads the current frame, flips
the sign for expenses, concatenates the new row, saves, returns `True`.
The function body performs no validation of the date or the amount. -/
def add_transaction (date : Int) (ttype category : String) (amount : ℚ)
    (description : String) (tags : String) (s : Storage) : Bool × Storage :=
  let df := load_data s
  let final_amount := if ttype = "Income" then amount else -amount
  let new_entry : Transaction :=
    { date := date, ttype := ttype, category := category, amount := final_amount,
      description := description, tags := some tags }
  (true, save_data (df ++ [new_entry]) s)

/-- `delete_transaction` (src/app.py lines 101-108): positional removal guarded
by `0 <= index < len(df)`; out-of-range indices return `False` without saving. -/
def delete_transaction (index : Int) (s : Storage) : Bool × Storage :=
  let df := load_data s
  if 0 ≤ index ∧ index < (df.length : Int) then
    (true, save_data (df.eraseIdx index.toNat) s)
  else
    (false, s)

end Store

/-! ## Read/parse model of `load_data` (src/app.py lines 66-75)

`pd.read_csv(DATA_FILE, parse_dates=['Date'])` can (a) raise
`FileNotFoundError`, (b) raise some other read/parse error, or (c) produce a
frame of raw rows.  Only (a) is caught.  In a raw row, `dateParsed` is the
result of the `parse_dates` coercion (`none` when the cell cannot be parsed as
a date, in which case `pandas` keeps the original value and the row) and
`amountNumeric` is the result of `pd.to_numeric(..., errors='coerce')`
(`none` models the `NaN` produced for a non-numeric cell). -/

/-- Raw row as produced by `pd.read_csv` followed by the two coercions. -/
structure RawRow where
  dateParsed : Option Int
  ttype : String
  category : String
  amountNumeric : Option ℚ
  description : String
  tags : Option String
deriving Repr, DecidableEq

/-- Outcome of the `pd.read_csv` call inside `load_data`. -/
inductive ReadResult where
  | fileNotFound
  | readError
  | ok (rows : List RawRow)
deriving Repr, DecidableEq

/-- `load_data` (src/app.py lines 66-75).  `Except.error` models an exception
escaping to the caller: the `try` block catches `FileNotFoundError` only,
so every other failure of the read propagates.  On a successful read the
rows whose `Amount` coerced to `NaN` are dropped
(`df.dropna(subset=['Amount'])`); no filtering consults the `Date` column. -/
def load_data (r : ReadResult) : Except String (List String × List RawRow) :=
  match r with
  | .fileNotFound => .ok (canonicalColumns, [])
  | .readError => .error "uncaught exception"
  | .ok rows => .ok (canonicalColumns, rows.filter (fun row => row.amountNumeric.isSome))

/-! ## Dashboard metrics (src/app.py lines 253-306) -/

/-- `total_income = filtered_df[filtered_df['Amount'] > 0]['Amount'].sum()`. -/
def total_income (rows : List Transaction) : ℚ :=
  ((rows.filter (fun t => decide (0 < t.amount))).map (fun t => t.amount)).sum

/-- `total_expenses = abs(filtered_df[filtered_df['Amount'] < 0]['Amount'].sum())`. -/
def total_expenses (rows : List Transaction) : ℚ :=
  |((rows.filter (fun t => decide (t.amount < 0))).map (fun t => t.amount)).sum|

/-- `net_balance = total_income - total_expenses`. -/
def net_balance (rows : List Transaction) : ℚ :=
  total_income rows - total_expenses rows

/-- The savings-rate metric (src/app.py lines 297-306): shown as
`(net_balance / total_income) * 100` when `total_income > 0`, otherwise the
literal "N/A" (modelled as `none`). -/
def savings_rate (rows : List Transaction) : Option ℚ :=
  if 0 < total_income rows then some (net_balance rows / total_income rows * 100)
  else none

/-! ## Previous-period trend metrics (src/app.py lines 257-294) -/

/-- The date-range mask `(df['Date'].dt.date >= start_date) & (df['Date'].dt.date <= end_date)`
(src/app.py line 244), inclusive on both ends. -/
def filterByRange (rows : List Transaction) (start_d end_d : Int) : List Transaction :=
  rows.filter (fun t => decide (start_d ≤ t.date) && decide (t.date ≤ end_d))

/-- The previous-period frame (src/app.py lines 258-263):
`period_days = (end_date - start_date).days`, `prev_start = start_date - period_days`,
`prev_end = start_date`, mask `>= prev_start` and strictly `< prev_end`. -/
def prev_df (rows : List Transaction) (start_d end_d : Int) : List Transaction :=
  let period_days := end_d - start_d
  let prev_start := start_d - period_days
  let prev_end := start_d
  rows.filter (fun t => decide (prev_start ≤ t.date) && decide (t.date < prev_end))

/-- `income_delta` (src/app.py line 273): `total_income - prev_income` when
`prev_income > 0`, else `None`.  `prev_income` falls back to `0` on an empty
previous frame, which coincides with the empty sum. -/
def income_delta (rows : List Transaction) (start_d end_d : Int) : Option ℚ :=
  let prev_income := total_income (prev_df rows start_d end_d)
  if 0 < prev_income then some (total_income (filterByRange rows start_d end_d) - prev_income)
  else none

/-- `expense_delta` (src/app.py line 281): `total_expenses - prev_expenses` when
`prev_expenses > 0`, else `None`. -/
def expense_delta (rows : List Transaction) (start_d end_d : Int) : Option ℚ :=
  let prev_expenses := total_expenses (prev_df rows start_d end_d)
  if 0 < prev_expenses then
    some (total_expenses (filterByRange rows start_d end_d) - prev_expenses)
  else none

/-- `balance_delta` (src/app.py line 290): `net_balance - prev_balance` when
`prev_balance != 0`, else `None`. -/
def balance_delta (rows : List Transaction) (start_d end_d : Int) : Option ℚ :=
  let prev_balance := net_balance (prev_df rows start_d end_d)
  if prev_balance ≠ 0 then some (net_balance (filterByRange rows start_d end_d) - prev_balance)
  else none

/-! ## Tag analysis (src/app.py lines 405-419)

Python's `str.split(',')` and `str.strip()` modelled on the character list of
the string: `split` never drops tokens (consecutive or trailing separators
produce empty tokens, and `''.split(',') == ['']`), `strip` removes leading and
trailing whitespace. -/

/-- Character-level split on a single separator, with Python `str.split`
semantics: the result is always nonempty and empty tokens are kept. -/
def splitOnChar (c : Char) : List Char → List (List Char)
  | [] => [[]]
  | x :: xs =>
    match splitOnChar c xs with
    | [] => [[]]
    | y :: ys => if x = c then [] :: y :: ys else (x :: y) :: ys

/-- Python `row['Tags'].split(',')`. -/
def pySplit (s : String) (c : Char) : List String :=
  (splitOnChar c s.data).map String.mk

/-- Python `str.strip()`: drop whitespace from both ends. -/
def pyStrip (s : String) : String :=
  String.mk (((s.data.dropWhile Char.isWhitespace).reverse.dropWhile Char.isWhitespace).reverse)

/-- One output row of the tag fan-out (`{'Tag': ..., 'Amount': ..., 'Type': ...}`). -/
structure TagRow where
  tag : String
  amount : ℚ
  ttype : String
deriving Repr, DecidableEq

/-- The rows appended to `tag_data` for one transaction (src/app.py lines
408-415): skipped entirely when `Tags` is `NaN` or whitespace-only, otherwise
one row per comma-split token, each trimmed and carrying `abs(row['Amount'])`
and `row['Type']`. -/
def tag_rows (t : Transaction) : List TagRow :=
  match t.tags with
  | none => []
  | some s =>
    if pyStrip s = "" then []
    else (pySplit s ',').map (fun tok => { tag := pyStrip tok, amount := |t.amount|, ttype := t.ttype })

/-- `tag_data` after the loop over `filtered_df.iterrows()` (src/app.py lines
406-415): concatenation of each transaction's fan-out rows, in order. -/
def tag_breakdown (rows : List Transaction) : List TagRow :=
  rows.flatMap tag_rows

/-! ## CSV export (src/app.py lines 486-493)

`csv = display_df.to_csv(index=False)` serialises the filtered view back to
the flat store format (header line, comma-separated fields, one line per row)
for `st.download_button`; it performs no write to the store.  The serialiser
and the re-parser live in the `pandas` library, not in this repository. -/

namespace Export

/-- Modelled from the spec: the flat export format of §6 — a header row
followed by one comma-separated line per transaction, the six fields in
canonical order, rendered as plain text. One export row; each field holds the
rendered text of the corresponding cell. -/
structure ExportRow where
  dateField : String
  ttypeField : String
  categoryField : String
  amountField : String
  descriptionField : String
  tagsField : String
deriving Repr, DecidableEq

/-- The six rendered fields of a row, in canonical column order. -/
def toFields (r : ExportRow) : List String :=
  [r.dateField, r.ttypeField, r.categoryField, r.amountField, r.descriptionField, r.tagsField]

/-- Interleave a separator character between chunks (inverse of `splitOnChar`). -/
def joinWith (c : Char) : List (List Char) → List Char
  | [] => []
  | [f] => f
  | f :: rest => f ++ c :: joinWith c rest

/-- Modelled from the spec: one serialised CSV line of a row. -/
def serialize_row (r : ExportRow) : List Char :=
  joinWith ',' ((toFields r).map String.data)

/-- The header line of the flat format. -/
def header : List Char :=
  "Date,Type,Category,Amount,Description,Tags".data

/-- Modelled from the spec: `display_df.to_csv(index=False)` — header line then
one line per row, joined with newlines. -/
def serialize_csv (rows : List ExportRow) : List Char :=
  joinWith '\n' (header :: rows.map serialize_row)

/-- Modelled from the spec: re-parsing one line with the six-column schema. -/
def parse_row (l : List Char) : Option ExportRow :=
  match splitOnChar ',' l with
  | [d, t, c, a, de, tg] =>
    some { dateField := String.mk d, ttypeField := String.mk t, categoryField := String.mk c,
           amountField := String.mk a, descriptionField := String.mk de,
           tagsField := String.mk tg }
  | _ => none

/-- Parse every data line, failing if any line fails. -/
def parse_rows : List (List Char) → Option (List ExportRow)
  | [] => some []
  | l :: ls =>
    match parse_row l, parse_rows ls with
    | some r, some rs => some (r :: rs)
    | _, _ => none

/-- Modelled from the spec: re-parsing a serialised export with the same
schema — split into lines, drop the header, parse each line. -/
def parse_csv (s : List Char) : Option (List ExportRow) :=
  parse_rows ((splitOnChar '\n' s).drop 1)

/-- A row is storable in the plain flat format when no field contains the
column or row separator (the spec's format stores fields as plain text). -/
def storable (r : ExportRow) : Prop :=
  ∀ f ∈ toFields r, ',' ∉ f.data ∧ '\n' ∉ f.data

instance : DecidablePred storable := fun r =>
  inferInstanceAs (Decidable (∀ f ∈ toFields r, ',' ∉ f.data ∧ '\n' ∉ f.data))

/-- The export operation on the app state: serialises the given view for
download and touches nothing on disk (src/app.py lines 486-493 contain no
call to `save_data` or `to_csv(DATA_FILE)`). -/
def export_op (s : Storage) (view : List ExportRow) : List Char × Storage :=
  (serialize_csv view, s)

end Export

/-- Number of (transaction, tag) pairs contributed by one transaction: zero
when `Tags` is absent or whitespace-only, otherwise the number of comma-split
tokens. -/
def numTags (t : Transaction) : Nat :=
  match t.tags with
  | none => 0
  | some s => if pyStrip s = "" then 0 else (pySplit s ',').length

/-! ## Shared helper lemmas -/

/-- `total_income` is a sum of strictly positive amounts, hence nonnegative. -/
lemma total_income_nonneg (rows : List Transaction) : 0 ≤ total_income rows := by
  apply List.sum_nonneg
  intro x hx
  obtain ⟨t, ht, rfl⟩ := List.mem_map.mp hx
  have := List.of_mem_filter ht
  exact le_of_lt (by simpa using this)

/-- `total_expenses` is an absolute value, hence nonnegative. -/
lemma total_expenses_nonneg (rows : List Transaction) : 0 ≤ total_expenses rows :=
  abs_nonneg _

/-! ## Claims -/

/-- C1: the claim says `add_transaction` rejects a future-dated or non-positive
transaction and leaves the persisted state unchanged.  The function body
(src/app.py lines 81-99) performs no validation at all: for every input —
in particular a `Date` after the current date or an `amount ≤ 0` — it reports
success and overwrites the primary store with the appended row-set, so the
persisted row-set always changes. -/
theorem add_transaction_never_rejects (date : Int) (ttype category : String)
    (amount : ℚ) (description tags : String) (s : Storage) :
    (Store.add_transaction date ttype category amount description tags s).1 = true ∧
    (Store.add_transaction date ttype category amount description tags s).2.primary =
      some (Store.load_data s ++
        [{ date := date, ttype := ttype, category := category,
           amount := if ttype = "Income" then amount else -amount,
           description := description, tags := some tags }]) ∧
    (Store.add_transaction date ttype category amount description tags s).2.primary ≠
      s.primary := by
  refine ⟨rfl, rfl, ?_⟩
  cases h : s.primary with
  | none => simp [Store.add_transaction, Store.save_data, h]
  | some df =>
    simp only [Store.add_transaction, Store.save_data, Store.load_data, h, Option.getD_some]
    intro hcontra
    have := congrArg (fun o => (Option.getD o []).length) hcontra
    simp at this

/-- C2: the claim says every successful append and delete first writes a
uniquely-named backup copy of the pre-write state.  `save_data`
(src/app.py lines 77-79) only executes `df.to_csv(DATA_FILE, index=False)`:
it overwrites the primary store and leaves the backup collection exactly as it
was, and neither `add_transaction` nor a successful `delete_transaction`
creates a backup either. -/
theorem save_data_writes_no_backup (df : List Transaction) (s : Storage)
    (date : Int) (ttype category : String) (amount : ℚ) (description tags : String)
    (i : Int) :
    (Store.save_data df s).primary = some df ∧
    (Store.save_data df s).backups = s.backups ∧
    (Store.add_transaction date ttype category amount description tags s).2.backups =
      s.backups ∧
    (Store.delete_transaction i s).2.backups = s.backups := by
  refine ⟨rfl, rfl, rfl, ?_⟩
  simp only [Store.delete_transaction]
  split <;> rfl

/-- C3: the claim says `load_data` never propagates a failure: missing file
gives the empty canonical-schema frame, and any other read/parse failure also
gives an empty frame.  The code (src/app.py lines 66-75) catches
`FileNotFoundError` only, so every other read/parse failure escapes to the
caller; this counterexample exhibits the escaping error. -/
theorem load_data_propagates_read_error :
    load_data ReadResult.readError = Except.error "uncaught exception" ∧
    ∀ cols rows, load_data ReadResult.readError ≠ Except.ok (cols, rows) := by
  exact ⟨rfl, fun cols rows h => by simp [load_data] at h⟩

/-- C3 (amended): `load_data` returns the empty frame with the canonical
six-column schema when the store file does not exist; a successful read never
fails; any other read/parse failure propagates as an uncaught exception. -/
theorem load_data_error_behaviour :
    load_data ReadResult.fileNotFound = Except.ok (canonicalColumns, []) ∧
    (∀ rows, (load_data (ReadResult.ok rows)).isOk = true) ∧
    ∃ msg, load_data ReadResult.readError = Except.error msg :=
  ⟨rfl, fun _ => rfl, "uncaught exception", rfl⟩

/-- C4: the claim says `load_data` drops every row whose `Date` cannot be
coerced.  It does not: `parse_dates` keeps unparseable cells and the only
filter is `dropna(subset=['Amount'])`, so this row with an unparseable `Date`
and a numeric `Amount` is returned to the caller. -/
theorem load_data_keeps_unparseable_date :
    load_data (ReadResult.ok
        [{ dateParsed := none, ttype := "Expense", category := "Groceries",
           amountNumeric := some (-5), description := "", tags := none }]) =
      Except.ok (canonicalColumns,
        [{ dateParsed := none, ttype := "Expense", category := "Groceries",
           amountNumeric := some (-5), description := "", tags := none }]) ∧
    (RawRow.dateParsed
        { dateParsed := none, ttype := "Expense", category := "Groceries",
          amountNumeric := some (-5), description := "", tags := none }).isNone = true :=
  ⟨rfl, rfl⟩

/-- C4 (amended): on a successful read, `load_data` drops exactly the rows
whose `Amount` cannot be coerced to a numeric value and keeps every other row
(including rows whose `Date` failed to parse); every returned row has a
numeric `Amount`. -/
theorem load_data_filters_only_amount (rows : List RawRow) :
    load_data (ReadResult.ok rows) =
      Except.ok (canonicalColumns, rows.filter (fun r => r.amountNumeric.isSome)) ∧
    (rows.filter (fun r => r.amountNumeric.isSome)).all
      (fun r => r.amountNumeric.isSome) = true := by
  refine ⟨rfl, ?_⟩
  simp only [List.all_eq_true]
  intro r hr
  exact (List.mem_filter.mp hr).2

/-- C5: `delete_transaction` reports failure iff the position is outside
`[0, length)`; on failure the persisted state is unchanged; on success exactly
the row at that position is removed (positional removal) and the result is
persisted; deleting the only row at position 0 leaves a ledger that loads as
zero rows. -/
theorem delete_transaction_spec (i : Int) (s : Storage) :
    ((Store.delete_transaction i s).1 = false ↔
      ¬(0 ≤ i ∧ i < ((Store.load_data s).length : Int))) ∧
    ((Store.delete_transaction i s).1 = false → (Store.delete_transaction i s).2 = s) ∧
    ((Store.delete_transaction i s).1 = true →
      Store.load_data (Store.delete_transaction i s).2 =
        (Store.load_data s).take i.toNat ++ (Store.load_data s).drop (i.toNat + 1)) ∧
    (∀ t : Transaction,
      Store.load_data (Store.delete_transaction 0 (Store.save_data [t] s)).2 = []) := by
  by_cases h : 0 ≤ i ∧ i < ((Store.load_data s).length : Int)
  · refine ⟨by simp [Store.delete_transaction, h], by simp [Store.delete_transaction, h],
      ?_, ?_⟩
    · intro _
      have h2 : i < ((s.primary.getD []).length : Int) := by
        simpa [Store.load_data] using h.2
      simp [Store.delete_transaction, Store.load_data, Store.save_data, h.1, h2,
        List.eraseIdx_eq_take_drop_succ]
    · intro t
      simp [Store.delete_transaction, Store.save_data, Store.load_data]
  · refine ⟨by simp [Store.delete_transaction, h], ?_, ?_, ?_⟩
    · intro _
      simp [Store.delete_transaction, h]
    · intro hcontra
      simp [Store.delete_transaction, h] at hcontra
    · intro t
      simp [Store.delete_transaction, Store.save_data, Store.load_data]

/-- C5 witness: deleting the only row at position 0 of a one-row store. -/
theorem delete_transaction_spec_witness :
    Store.load_data (Store.delete_transaction 0
        (⟨some [{ date := 0, ttype := "Income", category := "Salary", amount := 3,
                  description := "", tags := none }], []⟩ : Storage)).2 =
      ([{ date := 0, ttype := "Income", category := "Salary", amount := 3,
          description := "", tags := none }] : List Transaction).take (Int.toNat 0) ++
      ([{ date := 0, ttype := "Income", category := "Salary", amount := 3,
          description := "", tags := none }] : List Transaction).drop (Int.toNat 0 + 1) :=
  (delete_transaction_spec 0
    (⟨some [{ date := 0, ttype := "Income", category := "Salary", amount := 3,
              description := "", tags := none }], []⟩ : Storage)).2.2.1 (by decide)

/-- C6: for every row-set, income is the sum of positive amounts, expenses the
absolute value of the sum of negative amounts, net balance their difference
(all three zero on the empty set), and the savings rate is "N/A" iff income is
exactly zero, otherwise `netBalance / income * 100`. -/
theorem totals_spec (rows : List Transaction) :
    total_income rows =
      ((rows.filter (fun t => decide (0 < t.amount))).map (fun t => t.amount)).sum ∧
    total_expenses rows =
      |((rows.filter (fun t => decide (t.amount < 0))).map (fun t => t.amount)).sum| ∧
    net_balance rows = total_income rows - total_expenses rows ∧
    (total_income ([] : List Transaction) = 0 ∧ total_expenses ([] : List Transaction) = 0 ∧
      net_balance ([] : List Transaction) = 0) ∧
    (savings_rate rows = none ↔ total_income rows = 0) ∧
    (total_income rows ≠ 0 →
      savings_rate rows = some (net_balance rows / total_income rows * 100)) := by
  have hnn := total_income_nonneg rows
  refine ⟨rfl, rfl, rfl,
    ⟨rfl, by simp [total_expenses], by simp [net_balance, total_income, total_expenses]⟩,
    ?_, ?_⟩
  · by_cases h' : 0 < total_income rows
    · simp [savings_rate, h', h'.ne']
    · have h0 : total_income rows = 0 := le_antisymm (not_lt.mp h') hnn
      simp [savings_rate, h', h0]
  · intro hne
    have h' : 0 < total_income rows := lt_of_le_of_ne hnn (Ne.symm hne)
    simp [savings_rate, h']

/-- C6 witness: one income of 1000 and one expense of 400 give a defined
savings rate (the dashboard shows 60%). -/
theorem totals_spec_witness :
    savings_rate
        [{ date := 0, ttype := "Income", category := "Salary", amount := 1000,
           description := "", tags := none },
         { date := 1, ttype := "Expense", category := "Housing", amount := -400,
           description := "", tags := none }] =
      some (net_balance
          [{ date := 0, ttype := "Income", category := "Salary", amount := 1000,
             description := "", tags := none },
           { date := 1, ttype := "Expense", category := "Housing", amount := -400,
             description := "", tags := none }] /
        total_income
          [{ date := 0, ttype := "Income", category := "Salary", amount := 1000,
             description := "", tags := none },
           { date := 1, ttype := "Expense", category := "Housing", amount := -400,
             description := "", tags := none }] * 100) :=
  (totals_spec _).2.2.2.2.2 (by simp +decide [total_income, List.filter])

/-- C7: the previous-period window is `[start − (end − start), start)`,
half-open at `start`; each delta equals the current window's total minus the
prior window's total and is "N/A" exactly when the prior window's
corresponding total is zero. -/
theorem period_delta_spec (rows : List Transaction) (start_d end_d : Int) :
    prev_df rows start_d end_d =
      rows.filter (fun t =>
        decide (start_d - (end_d - start_d) ≤ t.date) && decide (t.date < start_d)) ∧
    (income_delta rows start_d end_d = none ↔
      total_income (prev_df rows start_d end_d) = 0) ∧
    (total_income (prev_df rows start_d end_d) ≠ 0 →
      income_delta rows start_d end_d =
        some (total_income (filterByRange rows start_d end_d) -
          total_income (prev_df rows start_d end_d))) ∧
    (expense_delta rows start_d end_d = none ↔
      total_expenses (prev_df rows start_d end_d) = 0) ∧
    (total_expenses (prev_df rows start_d end_d) ≠ 0 →
      expense_delta rows start_d end_d =
        some (total_expenses (filterByRange rows start_d end_d) -
          total_expenses (prev_df rows start_d end_d))) ∧
    (balance_delta rows start_d end_d = none ↔
      net_balance (prev_df rows start_d end_d) = 0) ∧
    (net_balance (prev_df rows start_d end_d) ≠ 0 →
      balance_delta rows start_d end_d =
        some (net_balance (filterByRange rows start_d end_d) -
          net_balance (prev_df rows start_d end_d))) := by
  have hnnI := total_income_nonneg (prev_df rows start_d end_d)
  have hnnE := total_expenses_nonneg (prev_df rows start_d end_d)
  refine ⟨rfl, ?_, ?_, ?_, ?_, ?_, ?_⟩
  · by_cases h' : 0 < total_income (prev_df rows start_d end_d)
    · simp [income_delta, h', h'.ne']
    · have h0 := le_antisymm (not_lt.mp h') hnnI
      simp [income_delta, h', h0]
  · intro hne
    have h' := lt_of_le_of_ne hnnI (Ne.symm hne)
    simp [income_delta, h']
  · by_cases h' : 0 < total_expenses (prev_df rows start_d end_d)
    · simp [expense_delta, h', h'.ne']
    · have h0 := le_antisymm (not_lt.mp h') hnnE
      simp [expense_delta, h', h0]
  · intro hne
    have h' := lt_of_le_of_ne hnnE (Ne.symm hne)
    simp [expense_delta, h']
  · by_cases h' : net_balance (prev_df rows start_d end_d) = 0
    · simp [balance_delta, h']
    · simp [balance_delta, h']
  · intro hne
    simp [balance_delta, hne]

/-- C7 witness: window `[10, 12]` against prior window `[8, 10)`; the prior
income of 100 is nonzero, so the income delta is defined and equals current
minus prior. -/
theorem period_delta_spec_witness :
    income_delta
        [{ date := 8, ttype := "Income", category := "Salary", amount := 100,
           description := "", tags := none },
         { date := 11, ttype := "Income", category := "Salary", amount := 50,
           description := "", tags := none }] 10 12 =
      some (total_income (filterByRange
          [{ date := 8, ttype := "Income", category := "Salary", amount := 100,
             description := "", tags := none },
           { date := 11, ttype := "Income", category := "Salary", amount := 50,
             description := "", tags := none }] 10 12) -
        total_income (prev_df
          [{ date := 8, ttype := "Income", category := "Salary", amount := 100,
             description := "", tags := none },
           { date := 11, ttype := "Income", category := "Salary", amount := 50,
             description := "", tags := none }] 10 12)) :=
  (period_delta_spec _ 10 12).2.2.1 (by simp +decide [total_income, prev_df, List.filter])

/-- C8: the tag fan-out emits one row per (transaction, tag) pair — the total
row count is the sum over transactions of their comma-split token count, with
absent or whitespace-only `Tags` contributing zero — and every emitted row of
a transaction carries that transaction's full absolute amount and its type. -/
theorem tag_breakdown_spec (rows : List Transaction) :
    (tag_breakdown rows).length = (rows.map numTags).sum ∧
    (∀ t : Transaction, t.tags = none → tag_rows t = []) ∧
    (∀ t : Transaction, ∀ s, t.tags = some s → pyStrip s = "" → tag_rows t = []) ∧
    (∀ t : Transaction, ∀ s, t.tags = some s → pyStrip s ≠ "" →
      tag_rows t = (pySplit s ',').map
        (fun tok => { tag := pyStrip tok, amount := |t.amount|, ttype := t.ttype })) := by
  refine ⟨?_, ?_, ?_, ?_⟩
  · induction rows with
    | nil => rfl
    | cons t ts ih =>
      have h : (tag_rows t).length = numTags t := by
        cases htags : t.tags with
        | none => simp [tag_rows, numTags, htags]
        | some s2 =>
          by_cases hs : pyStrip s2 = ""
          · simp [tag_rows, numTags, htags, hs]
          · simp [tag_rows, numTags, htags, hs]
      simpa [tag_breakdown, h] using ih
  · intro t h
    simp [tag_rows, h]
  · intro t s2 h hs
    simp [tag_rows, h, hs]
  · intro t s2 h hs
    simp [tag_rows, h, hs]

/-- C8 witness: a transaction tagged `"a,b,c"` fans out to exactly three rows,
each carrying the full absolute amount 5 and the transaction's type. -/
theorem tag_breakdown_spec_witness :
    tag_rows { date := 0, ttype := "Expense", category := "Food & Dining", amount := -5,
               description := "", tags := some "a,b,c" } =
      (pySplit "a,b,c" ',').map
        (fun tok => { tag := pyStrip tok, amount := |(-5 : ℚ)|, ttype := "Expense" }) ∧
    ((pySplit "a,b,c" ',').map
      (fun tok => ({ tag := pyStrip tok, amount := |(-5 : ℚ)|,
                     ttype := "Expense" } : TagRow))).length = 3 :=
  ⟨(tag_breakdown_spec []).2.2.2
      { date := 0, ttype := "Expense", category := "Food & Dining", amount := -5,
        description := "", tags := some "a,b,c" } "a,b,c" rfl (by decide),
    by decide⟩

/-! ## Round-trip lemmas for the flat export format -/

lemma splitOnChar_ne_nil (c : Char) (l : List Char) : splitOnChar c l ≠ [] := by
  induction l with
  | nil => simp [splitOnChar]
  | cons x xs ih =>
    have hstep : splitOnChar c (x :: xs) =
        match splitOnChar c xs with
        | [] => [[]]
        | y :: ys => if x = c then [] :: y :: ys else (x :: y) :: ys := rfl
    rw [hstep]
    cases hsp : splitOnChar c xs with
    | nil => simp
    | cons y ys => by_cases hx : x = c <;> simp [hx]

lemma splitOnChar_of_not_mem (c : Char) (f : List Char) (h : c ∉ f) :
    splitOnChar c f = [f] := by
  induction f with
  | nil => rfl
  | cons x xs ih =>
    have hx : ¬x = c := by
      intro hxc
      exact h (hxc ▸ List.mem_cons_self x xs)
    have hxs : c ∉ xs := fun hm => h (List.mem_cons_of_mem _ hm)
    simp [splitOnChar, ih hxs, hx]

lemma splitOnChar_append_sep (c : Char) (f t : List Char) (h : c ∉ f) :
    splitOnChar c (f ++ c :: t) = f :: splitOnChar c t := by
  induction f with
  | nil =>
    simp only [List.nil_append, splitOnChar]
    cases hsp : splitOnChar c t with
    | nil => exact absurd hsp (splitOnChar_ne_nil c t)
    | cons y ys => simp
  | cons x xs ih =>
    have hx : ¬x = c := by
      intro hxc
      exact h (hxc ▸ List.mem_cons_self x xs)
    have hxs : c ∉ xs := fun hm => h (List.mem_cons_of_mem _ hm)
    have hstep : splitOnChar c ((x :: xs) ++ c :: t) =
        match splitOnChar c (xs ++ c :: t) with
        | [] => [[]]
        | y :: ys => if x = c then [] :: y :: ys else (x :: y) :: ys := rfl
    rw [hstep, ih hxs]
    simp [hx]

lemma splitOnChar_joinWith (c : Char) (xss : List (List Char))
    (hne : xss ≠ []) (h : ∀ f ∈ xss, c ∉ f) :
    splitOnChar c (Export.joinWith c xss) = xss := by
  induction xss with
  | nil => exact absurd rfl hne
  | cons f rest ih =>
    cases rest with
    | nil => exact splitOnChar_of_not_mem c f (h f (by simp))
    | cons g rest2 =>
      rw [show Export.joinWith c (f :: g :: rest2) =
          f ++ c :: Export.joinWith c (g :: rest2) from rfl]
      rw [splitOnChar_append_sep c f _ (h f (by simp))]
      rw [ih (by simp) (fun f2 hf2 => h f2 (List.mem_cons_of_mem _ hf2))]

lemma mem_joinWith (c : Char) (xss : List (List Char)) (a : Char)
    (ha : a ∈ Export.joinWith c xss) : a = c ∨ ∃ f ∈ xss, a ∈ f := by
  induction xss with
  | nil => simp [Export.joinWith] at ha
  | cons f rest ih =>
    cases rest with
    | nil =>
      right
      exact ⟨f, by simp, by simpa [Export.joinWith] using ha⟩
    | cons g rest2 =>
      rw [show Export.joinWith c (f :: g :: rest2) =
          f ++ c :: Export.joinWith c (g :: rest2) from rfl] at ha
      rcases List.mem_append.mp ha with hf | hrest
      · right
        exact ⟨f, by simp, hf⟩
      · rcases List.mem_cons.mp hrest with heq | h2
        · left
          exact heq
        · rcases ih h2 with heq | ⟨f2, hf2, haf2⟩
          · left
            exact heq
          · right
            exact ⟨f2, List.mem_cons_of_mem _ hf2, haf2⟩

lemma parse_row_serialize_row (r : Export.ExportRow) (h : Export.storable r) :
    Export.parse_row (Export.serialize_row r) = some r := by
  have hfields : ∀ f ∈ (Export.toFields r).map String.data, ',' ∉ f := by
    intro f hf
    obtain ⟨g, hg, rfl⟩ := List.mem_map.mp hf
    exact (h g hg).1
  unfold Export.parse_row Export.serialize_row
  rw [splitOnChar_joinWith ',' _ (by simp [Export.toFields]) hfields]
  rfl

lemma newline_not_in_serialize_row (r : Export.ExportRow) (h : Export.storable r) :
    '\n' ∉ Export.serialize_row r := by
  intro hmem
  rcases mem_joinWith ',' _ '\n' hmem with heq | ⟨f, hf, haf⟩
  · exact absurd heq (by decide)
  · obtain ⟨g, hg, rfl⟩ := List.mem_map.mp hf
    exact (h g hg).2 haf

lemma parse_rows_map_serialize (view : List Export.ExportRow)
    (h : ∀ r ∈ view, Export.storable r) :
    Export.parse_rows (view.map Export.serialize_row) = some view := by
  induction view with
  | nil => rfl
  | cons r rest ih =>
    simp [Export.parse_rows, parse_row_serialize_row r (h r (by simp)),
      ih (fun r2 hr2 => h r2 (List.mem_cons_of_mem _ hr2))]

/-- C9: serialising a filtered view to the flat export format and re-parsing
it with the same schema reproduces the same rows with every field equal, and
the export is a read-only projection: the persisted state is untouched.
(Rows are storable in the plain flat format when no field contains a
separator character.) -/
theorem export_round_trip (s : Storage) (view : List Export.ExportRow)
    (h : ∀ r ∈ view, Export.storable r) :
    Export.parse_csv (Export.serialize_csv view) = some view ∧
    (Export.export_op s view).2 = s := by
  refine ⟨?_, rfl⟩
  have hmem : ∀ f ∈ Export.header :: view.map Export.serialize_row, '\n' ∉ f := by
    intro f hf
    rcases List.mem_cons.mp hf with heq | hf2
    · subst heq
      decide
    · obtain ⟨r, hr, rfl⟩ := List.mem_map.mp hf2
      exact newline_not_in_serialize_row r (h r hr)
  unfold Export.parse_csv Export.serialize_csv
  rw [splitOnChar_joinWith '\n' (Export.header :: view.map Export.serialize_row)
    (by simp) hmem]
  simpa using parse_rows_map_serialize view h

/-- C9 witness: round trip of a concrete one-row view. -/
theorem export_round_trip_witness :
    Export.parse_csv (Export.serialize_csv
        [{ dateField := "2024-01-15", ttypeField := "Income", categoryField := "Salary",
           amountField := "3000.0", descriptionField := "Monthly pay",
           tagsField := "work" }]) =
      some
        [{ dateField := "2024-01-15", ttypeField := "Income", categoryField := "Salary",
           amountField := "3000.0", descriptionField := "Monthly pay",
           tagsField := "work" }] :=
  (export_round_trip ⟨none, []⟩
    [{ dateField := "2024-01-15", ttypeField := "Income", categoryField := "Salary",
       amountField := "3000.0", descriptionField := "Monthly pay",
       tagsField := "work" }] (by decide)).1

/-- C10: a `Tags` string with a trailing comma fans out to a row whose tag is
the empty string, still carrying the absolute amount; only a fully empty
(`NaN`) or whitespace-only `Tags` field is skipped. -/
theorem tag_fanout_emits_empty_token :
    tag_breakdown [{ date := 0, ttype := "Expense", category := "Groceries", amount := -5,
                     description := "", tags := some "food," }] =
      [{ tag := "food", amount := 5, ttype := "Expense" },
       { tag := "", amount := 5, ttype := "Expense" }] ∧
    tag_breakdown [{ date := 0, ttype := "Expense", category := "Groceries", amount := -5,
                     description := "", tags := some "  " }] = [] ∧
    tag_breakdown [{ date := 0, ttype := "Expense", category := "Groceries", amount := -5,
                     description := "", tags := none }] = [] := by
  refine ⟨by decide, by decide, by decide⟩

end App
